import Mathlib

/-!
Verification of the HeapKitDemo core: a shallow embedding of the heap
allocation tracker (HeapAnalyzer), the bug simulator (BugSimulator) and the
grooming-strategy generator (GroomingStrategyGenerator), with theorems
settling the specification claims about them.

JavaScript objects are modelled as Lean structures; the mutable object graph
(allocation records shared by reference between the allocation table, the
bucket sequences and the timeline) is modelled by storing allocation ids in
buckets and timeline events and looking records up in the allocation table.
Timestamps (Date.now()) are passed in explicitly as naturals.
-/

namespace HeapKit

/-- Allocation status: the JS code uses the strings "allocated" and "freed". -/
inductive AllocStatus where
  | allocated
  | freed
deriving DecidableEq, Repr

/-- An allocation record, as built by HeapAnalyzer.recordAllocation. -/
structure Allocation where
  id : Nat
  size : Int
  type : String
  timestamp : Nat
  metadata : List (String × String)
  status : AllocStatus
  freedAt : Option Nat
deriving DecidableEq, Repr

/-- Aggregate counters of the tracker (this.stats).  The live counter is an
integer because recordDeallocation decrements it unconditionally and it can
go negative. -/
structure Stats where
  totalAllocations : Nat
  totalDeallocations : Nat
  maxLiveAllocations : Int
  currentLiveAllocations : Int
deriving DecidableEq, Repr

/-- A timeline entry.  The JS code stores a reference to the allocation
object; we store its id.  Bug events carry the details recordBug receives. -/
inductive TimelineEvent where
  | allocation (timestamp : Nat) (allocId : Nat)
  | deallocation (timestamp : Nat) (allocId : Nat)
  | bug (timestamp : Nat) (sourceId : Nat) (bugType : String)
      (overflowSize : Option Int) (impactedId : Option Nat) (wrongType : Option String)
deriving DecidableEq, Repr

/-- The HeapAnalyzer state.  Buckets map a bucket size to the insertion-ordered
sequence of allocation ids pushed into that bucket. -/
structure HeapState where
  allocations : List Allocation
  buckets : List (Int × List Nat)
  timeline : List TimelineEvent
  nextId : Nat
  stats : Stats
deriving DecidableEq, Repr

/-- The freshly constructed HeapAnalyzer. -/
def initialHeap : HeapState :=
  { allocations := []
    buckets := []
    timeline := []
    nextId := 1
    stats := { totalAllocations := 0, totalDeallocations := 0,
               maxLiveAllocations := 0, currentLiveAllocations := 0 } }

/-- The fixed ascending table of small bucket sizes in findBucketForSize. -/
def bucketSizes : List Int :=
  [8, 16, 32, 48, 64, 80, 96, 112, 128,
   144, 160, 192, 224, 256, 320, 384,
   448, 512, 576, 640, 704, 768, 832, 896, 960, 1024]

/-- HeapAnalyzer.findBucketForSize.  The JS loop over bucketSizes returning the
first entry with size <= bucketSize is List.find?; Math.ceil(size / k) * k for
positive integer size is (size + k - 1) / k * k in integer arithmetic. -/
def findBucketForSize (size : Int) : Int :=
  if size ≤ 0 then 0
  else
    match (if size ≤ 1024 then bucketSizes.find? (fun b => decide (size ≤ b)) else none) with
    | some b => b
    | none =>
      if size ≤ 4096 then (size + 127) / 128 * 128
      else (size + 4095) / 4096 * 4096

/-- Look an allocation up by id (this.allocations.get(id)). -/
def lookupAlloc (s : HeapState) (id : Nat) : Option Allocation :=
  s.allocations.find? (fun a => a.id == id)

/-- The id sequence of a bucket (this.buckets.get(bucketSize) or []). -/
def bucketIds (s : HeapState) (bucketSize : Int) : List Nat :=
  match s.buckets.find? (fun p => p.1 == bucketSize) with
  | some p => p.2
  | none => []

/-- Push an id onto a bucket, creating the bucket when absent. -/
def pushToBucket (buckets : List (Int × List Nat)) (bucketSize : Int) (id : Nat) :
    List (Int × List Nat) :=
  if buckets.any (fun p => p.1 == bucketSize) then
    buckets.map (fun p => if p.1 == bucketSize then (p.1, p.2 ++ [id]) else p)
  else
    buckets ++ [(bucketSize, [id])]

/-- HeapAnalyzer.recordAllocation: returns the updated state and the new id. -/
def recordAllocation (s : HeapState) (size : Int) (type : String)
    (metadata : List (String × String)) (now : Nat) : HeapState × Nat :=
  let id := s.nextId
  let allocation : Allocation :=
    { id := id, size := size, type := type, timestamp := now,
      metadata := metadata, status := .allocated, freedAt := none }
  let bucketSize := findBucketForSize size
  let newLive := s.stats.currentLiveAllocations + 1
  ({ allocations := s.allocations ++ [allocation]
     buckets := pushToBucket s.buckets bucketSize id
     timeline := s.timeline ++ [.allocation now id]
     nextId := id + 1
     stats := { totalAllocations := s.stats.totalAllocations + 1
                totalDeallocations := s.stats.totalDeallocations
                maxLiveAllocations :=
                  if s.stats.maxLiveAllocations < newLive then newLive
                  else s.stats.maxLiveAllocations
                currentLiveAllocations := newLive } }, id)

/-- Mark an allocation record freed at the given time. -/
def freeAlloc (a : Allocation) (now : Nat) : Allocation :=
  { a with status := .freed, freedAt := some now }

/-- HeapAnalyzer.recordDeallocation: a warning and no mutation when the id is
unknown; otherwise the record is marked freed (no status guard), a timeline
event is appended and the counters are updated. -/
def recordDeallocation (s : HeapState) (id : Nat) (now : Nat) : HeapState :=
  match s.allocations.find? (fun a => a.id == id) with
  | none => s
  | some _ =>
    { s with
      allocations := s.allocations.map (fun a => if a.id == id then freeAlloc a now else a)
      timeline := s.timeline ++ [.deallocation now id]
      stats := { s.stats with
                 totalDeallocations := s.stats.totalDeallocations + 1
                 currentLiveAllocations := s.stats.currentLiveAllocations - 1 } }

/-- HeapAnalyzer.recordBug: appends a Bug timeline event when the source id is
known, otherwise warns and leaves the state unchanged. -/
def recordBug (s : HeapState) (sourceId : Nat) (bugType : String)
    (overflowSize : Option Int) (impactedId : Option Nat) (wrongType : Option String)
    (now : Nat) : HeapState :=
  if s.allocations.any (fun a => a.id == sourceId) then
    { s with timeline := s.timeline ++ [.bug now sourceId bugType overflowSize impactedId wrongType] }
  else s

/-- HeapAnalyzer.getAllocationsInBucket: the records of a bucket, in insertion
order (the JS list holds the records by reference; we resolve the ids). -/
def getAllocationsInBucket (s : HeapState) (bucketSize : Int) : List Allocation :=
  (bucketIds s bucketSize).filterMap (lookupAlloc s)

/-- Zero-based index of the first list entry equal to id (Array.findIndex). -/
def findIndexOfIdAux (id : Nat) : List Nat → Nat → Option Nat
  | [], _ => none
  | a :: as, i => if a == id then some i else findIndexOfIdAux id as (i + 1)

/-- Array.prototype.findIndex over the bucket id sequence. -/
def findIndexOfId (l : List Nat) (id : Nat) : Option Nat :=
  findIndexOfIdAux id l 0

/-- HeapAnalyzer.findAdjacentAllocations: the structurally previous and next
records in the bucket sequence, null at a boundary, with no status filter. -/
def findAdjacentAllocations (s : HeapState) (id : Nat) :
    Option Allocation × Option Allocation :=
  match lookupAlloc s id with
  | none => (none, none)
  | some allocation =>
    let bucketSize := findBucketForSize allocation.size
    let bucketed := bucketIds s bucketSize
    match findIndexOfId bucketed id with
    | none => (none, none)
    | some index =>
      ((if 0 < index then (bucketed.get? (index - 1)).bind (lookupAlloc s) else none),
       (if index < bucketed.length - 1 then (bucketed.get? (index + 1)).bind (lookupAlloc s) else none))

/-- Per-bucket statistics entry of generateBucketStats. -/
structure BucketStat where
  totalAllocations : Nat
  activeAllocations : Nat
  freedAllocations : Nat
  utilizationRate : ℚ
deriving DecidableEq, Repr

/-- HeapAnalyzer.generateBucketStats over every bucket. -/
def generateBucketStats (s : HeapState) : List (Int × BucketStat) :=
  s.buckets.map (fun p =>
    let allocs := p.2.filterMap (lookupAlloc s)
    let active := (allocs.filter (fun a => a.status == .allocated)).length
    let freed := (allocs.filter (fun a => a.status == .freed)).length
    (p.1, { totalAllocations := allocs.length
            activeAllocations := active
            freedAllocations := freed
            utilizationRate :=
              if 0 < allocs.length then (active : ℚ) / (allocs.length : ℚ) else 0 }))

/-- Per-type statistics entry of generateTypeStats. -/
structure TypeStat where
  count : Nat
  totalSize : Int
  active : Nat
  freed : Nat
deriving DecidableEq, Repr

/-- HeapAnalyzer.generateTypeStats: grouped over the full allocation table;
the keys appear in first-occurrence order like JS object keys. -/
def generateTypeStats (s : HeapState) : List (String × TypeStat) :=
  let types := (s.allocations.map (fun a => a.type)).eraseDups
  types.map (fun t =>
    let as := s.allocations.filter (fun a => a.type == t)
    (t, { count := as.length
          totalSize := (as.map (fun a => a.size)).sum
          active := (as.filter (fun a => a.status == .allocated)).length
          freed := (as.filter (fun a => !(a.status == .allocated))).length }))

/-- HeapAnalyzer.reset: every field back to its constructor value. -/
def reset (_s : HeapState) : HeapState := initialHeap

/-! ### Helper lemmas about the small-bucket table search -/

/-- A successful find? over the table yields a member satisfying size ≤ it. -/
theorem find_le_mem {size : Int} {l : List Int} {b : Int}
    (h : l.find? (fun x => decide (size ≤ x)) = some b) : b ∈ l ∧ size ≤ b := by
  refine ⟨List.mem_of_find?_eq_some h, ?_⟩
  have := List.find?_some h
  simpa using this

/-- Over a sorted table, find? with predicate size ≤ x returns the least
member that is ≥ size. -/
theorem find_le_min {size : Int} :
    ∀ {l : List Int}, l.Sorted (· ≤ ·) →
    ∀ {b : Int}, l.find? (fun x => decide (size ≤ x)) = some b →
    ∀ c ∈ l, size ≤ c → b ≤ c := by
  intro l
  induction l with
  | nil => intro _ b h; simp at h
  | cons a as ih =>
    intro hsorted b hfind c hc hsc
    rcases List.sorted_cons.mp hsorted with ⟨hle, htail⟩
    by_cases ha : size ≤ a
    · rw [List.find?_cons_of_pos _ (by simpa using ha)] at hfind
      cases hfind
      rcases List.mem_cons.mp hc with rfl | hc
      · exact le_refl c
      · exact hle c hc
    · rw [List.find?_cons_of_neg _ (by simpa using ha)] at hfind
      rcases List.mem_cons.mp hc with rfl | hc
      · exact absurd hsc ha
      · exact ih htail hfind c hc hsc

/-- Existence of a find? result when some member satisfies the predicate. -/
theorem find_le_exists {size : Int} :
    ∀ {l : List Int}, (∃ x ∈ l, size ≤ x) →
    ∃ b, l.find? (fun x => decide (size ≤ x)) = some b := by
  intro l
  induction l with
  | nil => rintro ⟨x, hx, _⟩; simp at hx
  | cons a as ih =>
    rintro ⟨x, hx, hsx⟩
    by_cases ha : size ≤ a
    · exact ⟨a, List.find?_cons_of_pos _ (by simpa using ha)⟩
    · rcases List.mem_cons.mp hx with rfl | hx
      · exact absurd hsx ha
      · rcases ih ⟨x, hx, hsx⟩ with ⟨b, hb⟩
        exact ⟨b, by rw [List.find?_cons_of_neg _ (by simpa using ha)]; exact hb⟩

/-- The bucket size table is sorted ascending. -/
theorem bucketSizes_sorted : bucketSizes.Sorted (· ≤ ·) := by decide

/-- C1: findBucketForSize is total (it is a Lean function) and returns 0 for
size ≤ 0; for 0 < size ≤ 1024 the least entry of the fixed table that is
≥ size; for 1024 < size ≤ 4096 size rounded up to the next multiple of 128;
for size > 4096 size rounded up to the next multiple of 4096; with the listed
concrete values classify(1)=8, classify(9)=16, classify(1024)=1024,
classify(1025)=1152, classify(4097)=8192, classify(0)=0, classify(-5)=0. -/
theorem findBucketForSize_spec (size : Int) :
    (size ≤ 0 → findBucketForSize size = 0) ∧
    (0 < size → size ≤ 1024 →
      findBucketForSize size ∈ bucketSizes ∧
      size ≤ findBucketForSize size ∧
      ∀ b ∈ bucketSizes, size ≤ b → findBucketForSize size ≤ b) ∧
    (1024 < size → size ≤ 4096 →
      (128 : Int) ∣ findBucketForSize size ∧
      size ≤ findBucketForSize size ∧
      findBucketForSize size < size + 128) ∧
    (4096 < size →
      (4096 : Int) ∣ findBucketForSize size ∧
      size ≤ findBucketForSize size ∧
      findBucketForSize size < size + 4096) ∧
    findBucketForSize 1 = 8 ∧ findBucketForSize 9 = 16 ∧
    findBucketForSize 1024 = 1024 ∧ findBucketForSize 1025 = 1152 ∧
    findBucketForSize 4097 = 8192 ∧ findBucketForSize 0 = 0 ∧
    findBucketForSize (-5) = 0 := by
  refine ⟨?_, ?_, ?_, ?_, by decide, by decide, by decide, by decide, by decide, by decide, by decide⟩
  · intro h
    simp [findBucketForSize, h]
  · intro hpos hle
    obtain ⟨b, hb⟩ := find_le_exists (l := bucketSizes) ⟨1024, by decide, hle⟩
    have hval : findBucketForSize size = b := by
      simp only [findBucketForSize, if_neg (not_le.mpr hpos), if_pos hle, hb]
    obtain ⟨hmem, hsb⟩ := find_le_mem hb
    refine ⟨hval ▸ hmem, hval ▸ hsb, ?_⟩
    intro c hc hsc
    rw [hval]
    exact find_le_min bucketSizes_sorted hb c hc hsc
  · intro h1 h2
    have hval : findBucketForSize size = (size + 127) / 128 * 128 := by
      simp only [findBucketForSize, if_neg (not_le.mpr (by omega : (0:Int) < size)),
        if_neg (not_le.mpr h1), if_pos h2]
    rw [hval]
    exact ⟨Dvd.intro _ (by ring), by omega, by omega⟩
  · intro h1
    have hval : findBucketForSize size = (size + 4095) / 4096 * 4096 := by
      simp only [findBucketForSize, if_neg (not_le.mpr (by omega : (0:Int) < size)),
        if_neg (not_le.mpr (by omega : (1024:Int) < size)),
        if_neg (not_le.mpr (by omega : (4096:Int) < size))]
    rw [hval]
    exact ⟨Dvd.intro _ (by ring), by omega, by omega⟩

/-- Witness for C1: the classifier evaluated on concrete sizes in each of the
four regimes, with every hypothesis discharged there. -/
theorem findBucketForSize_spec_witness :
    findBucketForSize (-3) = 0 ∧
    (findBucketForSize 500 ∈ bucketSizes ∧ (500 : Int) ≤ findBucketForSize 500 ∧
      ∀ b ∈ bucketSizes, (500 : Int) ≤ b → findBucketForSize 500 ≤ b) ∧
    ((128 : Int) ∣ findBucketForSize 2000 ∧ (2000 : Int) ≤ findBucketForSize 2000 ∧
      findBucketForSize 2000 < 2000 + 128) ∧
    ((4096 : Int) ∣ findBucketForSize 5000 ∧ (5000 : Int) ≤ findBucketForSize 5000 ∧
      findBucketForSize 5000 < 5000 + 4096) :=
  ⟨(findBucketForSize_spec (-3)).1 (by norm_num),
   (findBucketForSize_spec 500).2.1 (by norm_num) (by norm_num),
   (findBucketForSize_spec 2000).2.2.1 (by norm_num) (by norm_num),
   (findBucketForSize_spec 5000).2.2.2.1 (by norm_num)⟩

/-! ### Helper lemmas about lookups after a deallocation -/

/-- Marking the record with the given id freed is visible through lookup. -/
theorem find?_map_free_eq (l : List Allocation) (id now : Nat) (a : Allocation)
    (h : l.find? (fun x => x.id == id) = some a) :
    (l.map (fun x => if x.id == id then freeAlloc x now else x)).find? (fun x => x.id == id)
      = some (freeAlloc a now) := by
  induction l with
  | nil => simp at h
  | cons b bs ih =>
    by_cases hbid : b.id = id
    · simp only [List.find?, hbid, beq_self_eq_true] at h
      simp only [List.map_cons, hbid, beq_self_eq_true, if_true, List.find?]
      simp only [freeAlloc] at *
      simp_all
    · have hb : (b.id == id) = false := by simp [hbid]
      simp only [List.find?, hb] at h
      simp only [List.map_cons, hb, Bool.false_eq_true, if_false, List.find?]
      exact ih h

/-- Lookups at any other id are unchanged by marking one record freed. -/
theorem find?_map_free_ne (l : List Allocation) (id now j : Nat) (hne : j ≠ id) :
    (l.map (fun x => if x.id == id then freeAlloc x now else x)).find? (fun x => x.id == j)
      = l.find? (fun x => x.id == j) := by
  induction l with
  | nil => simp
  | cons b bs ih =>
    by_cases hbid : b.id = id
    · have hb : (b.id == id) = true := by simp [hbid]
      have hbj : (b.id == j) = false := by
        simp only [beq_eq_false_iff_ne]
        intro h
        exact hne (hbid ▸ h).symm
      have hfrj : ((freeAlloc b now).id == j) = false := by simpa [freeAlloc] using hbj
      simp only [List.map_cons, hb, if_true, List.find?, hbj, hfrj]
      exact ih
    · have hb : (b.id == id) = false := by simp [hbid]
      simp only [List.map_cons, hb, Bool.false_eq_true, if_false, List.find?]
      cases hbj : (b.id == j) with
      | true => rfl
      | false => exact ih

/-- C5: recordDeallocation on an unknown id is a no-op on the whole state; on
a known id it marks the record freed with the new timestamp (with no guard on
the previous status, so an already freed record is freed again and its freed
timestamp re-set), appends a deallocation timeline event, increments the
total-deallocations counter and decrements the live counter, leaving buckets,
the id counter, the other counters and every other record unchanged. -/
theorem recordDeallocation_spec (s : HeapState) (id now : Nat) :
    (lookupAlloc s id = none → recordDeallocation s id now = s) ∧
    (∀ a, lookupAlloc s id = some a →
      lookupAlloc (recordDeallocation s id now) id = some (freeAlloc a now) ∧
      (recordDeallocation s id now).timeline = s.timeline ++ [.deallocation now id] ∧
      (recordDeallocation s id now).stats.totalDeallocations = s.stats.totalDeallocations + 1 ∧
      (recordDeallocation s id now).stats.currentLiveAllocations
        = s.stats.currentLiveAllocations - 1 ∧
      (recordDeallocation s id now).stats.totalAllocations = s.stats.totalAllocations ∧
      (recordDeallocation s id now).stats.maxLiveAllocations = s.stats.maxLiveAllocations ∧
      (recordDeallocation s id now).buckets = s.buckets ∧
      (recordDeallocation s id now).nextId = s.nextId ∧
      ∀ j, j ≠ id → lookupAlloc (recordDeallocation s id now) j = lookupAlloc s j) := by
  constructor
  · intro h
    have hfind : s.allocations.find? (fun x => x.id == id) = none := h
    simp only [recordDeallocation, hfind]
  · intro a ha
    have hfind : s.allocations.find? (fun x => x.id == id) = some a := ha
    refine ⟨?_, ?_, ?_, ?_, ?_, ?_, ?_, ?_, ?_⟩
    · simpa only [recordDeallocation, hfind, lookupAlloc]
        using find?_map_free_eq s.allocations id now a hfind
    · simp only [recordDeallocation, hfind]
    · simp only [recordDeallocation, hfind]
    · simp only [recordDeallocation, hfind]
    · simp only [recordDeallocation, hfind]
    · simp only [recordDeallocation, hfind]
    · simp only [recordDeallocation, hfind]
    · simp only [recordDeallocation, hfind]
    · intro j hj
      simpa only [recordDeallocation, hfind, lookupAlloc]
        using find?_map_free_ne s.allocations id now j hj

/-- A heap with a single allocation of size 64 and type Foo, then freed. -/
def freedFooHeap : HeapState :=
  recordDeallocation (recordAllocation initialHeap 64 "Foo" [] 1).1 1 2

/-- The record created by recordAllocation 64 Foo at time 1 on a fresh heap. -/
def fooRec : Allocation :=
  { id := 1, size := 64, type := "Foo", timestamp := 1, metadata := [],
    status := .allocated, freedAt := none }

/-- The record created by a second recordAllocation 64 Bar at time 2. -/
def barRec : Allocation :=
  { id := 2, size := 64, type := "Bar", timestamp := 2, metadata := [],
    status := .allocated, freedAt := none }

/-- Witness for C5: the no-op branch on a fresh heap with an unknown id, and
the mutation branch on an already freed record (second deallocation of the
same id re-sets the freed timestamp and counts again). -/
theorem recordDeallocation_spec_witness :
    recordDeallocation initialHeap 7 5 = initialHeap ∧
    lookupAlloc (recordDeallocation freedFooHeap 1 3) 1
      = some (freeAlloc (freeAlloc fooRec 2) 3) ∧
    (recordDeallocation freedFooHeap 1 3).stats.totalDeallocations = 2 ∧
    (recordDeallocation freedFooHeap 1 3).stats.currentLiveAllocations = -1 := by
  refine ⟨(recordDeallocation_spec initialHeap 7 5).1 (by decide), ?_⟩
  have h := (recordDeallocation_spec freedFooHeap 1 3).2 (freeAlloc fooRec 2) (by decide)
  exact ⟨h.1, by rw [h.2.2.1]; decide, by rw [h.2.2.2.1]; decide⟩

/-! ### Helper lemmas about positions in a bucket sequence -/

/-- The findIndex accumulator locates the distinguished occurrence. -/
theorem findIndexOfIdAux_append (idv : Nat) :
    ∀ (l1 : List Nat), idv ∉ l1 → ∀ (l2 : List Nat) (k : Nat),
      findIndexOfIdAux idv (l1 ++ idv :: l2) k = some (k + l1.length) := by
  intro l1
  induction l1 with
  | nil =>
    intro _ l2 k
    simp [findIndexOfIdAux]
  | cons a as ih =>
    intro hnotin l2 k
    have ha : (a == idv) = false := by
      simp only [beq_eq_false_iff_ne]
      intro h
      exact hnotin (by simp [h])
    simp only [List.cons_append, findIndexOfIdAux, ha, Bool.false_eq_true, if_false,
      List.append_eq]
    rw [ih (fun h => hnotin (List.mem_cons_of_mem _ h)) l2 (k + 1)]
    congr 1
    simp only [List.length_cons]
    omega

/-- Array.findIndex over a sequence split around the first occurrence of id. -/
theorem findIndexOfId_append (idv : Nat) (l1 l2 : List Nat) (hnotin : idv ∉ l1) :
    findIndexOfId (l1 ++ idv :: l2) idv = some l1.length := by
  unfold findIndexOfId
  rw [findIndexOfIdAux_append idv l1 hnotin l2 0]
  simp

/-- C6: for a known allocation, findAdjacentAllocations returns the record
immediately before and the record immediately after its position in the
bucket's insertion-ordered id sequence, with no condition on the status of
those records, and none at a sequence boundary. -/
theorem findAdjacentAllocations_spec (s : HeapState) (id : Nat) (a : Allocation)
    (l1 l2 : List Nat)
    (h : lookupAlloc s id = some a)
    (hsplit : bucketIds s (findBucketForSize a.size) = l1 ++ id :: l2)
    (hnotin : id ∉ l1) :
    findAdjacentAllocations s id
      = (l1.getLast?.bind (lookupAlloc s), l2.head?.bind (lookupAlloc s)) := by
  simp only [findAdjacentAllocations, h, hsplit, findIndexOfId_append id l1 l2 hnotin]
  congr 1
  · cases l1 with
    | nil => simp
    | cons b bs =>
      have hpos : 0 < (b :: bs).length := by simp
      rw [if_pos hpos]
      have hlt : (b :: bs).length - 1 < (b :: bs).length := by simp
      rw [List.get?_append hlt]
      rw [List.getLast?_eq_get?]
  · cases l2 with
    | nil =>
      have : ¬ l1.length < (l1 ++ [id]).length - 1 := by simp
      rw [if_neg this]
      simp
    | cons c cs =>
      have hlt : l1.length < (l1 ++ id :: c :: cs).length - 1 := by
        simp only [List.length_append, List.length_cons]
        omega
      rw [if_pos hlt]
      have hge : l1.length ≤ l1.length + 1 := by omega
      rw [List.get?_append_right hge]
      simp

/-- A heap with two allocations of size 64: Foo (id 1) then Bar (id 2). -/
def heapFooBar : HeapState :=
  (recordAllocation (recordAllocation initialHeap 64 "Foo" [] 1).1 64 "Bar" [] 2).1

/-- Witness for C6: after recordAllocation(64, Foo) then recordAllocation(64,
Bar) on a fresh tracker, the next neighbor of id 1 is the Bar record and the
previous neighbor of id 2 is the Foo record, with none at the boundaries. -/
theorem findAdjacentAllocations_spec_witness :
    findAdjacentAllocations heapFooBar 1 = (none, some barRec) ∧
    findAdjacentAllocations heapFooBar 2 = (some fooRec, none) := by
  constructor
  · rw [findAdjacentAllocations_spec heapFooBar 1 fooRec [] [2]
      (by decide) (by decide) (by decide)]
    decide
  · rw [findAdjacentAllocations_spec heapFooBar 2 barRec [1] []
      (by decide) (by decide) (by decide)]
    decide

/-- C8: after reset the allocation table, buckets, timeline and counters are
empty and the id counter is back at 1, the next recordAllocation returns
id 1, and the bucket and type statistics are empty maps. -/
theorem reset_spec (s : HeapState) (size : Int) (type : String)
    (metadata : List (String × String)) (now : Nat) :
    (reset s).allocations = [] ∧
    (reset s).buckets = [] ∧
    (reset s).timeline = [] ∧
    (reset s).nextId = 1 ∧
    (reset s).stats = { totalAllocations := 0, totalDeallocations := 0,
                        maxLiveAllocations := 0, currentLiveAllocations := 0 } ∧
    (recordAllocation (reset s) size type metadata now).2 = 1 ∧
    generateBucketStats (reset s) = [] ∧
    generateTypeStats (reset s) = [] :=
  ⟨rfl, rfl, rfl, rfl, rfl, rfl, rfl, rfl⟩

/-- C9: findAdjacentAllocations on an id absent from the allocation table
returns the pair (none, none); it is a pure read that reports no error and,
being a function of the state, performs no mutation. -/
theorem findAdjacentAllocations_unknown (s : HeapState) (id : Nat)
    (h : lookupAlloc s id = none) :
    findAdjacentAllocations s id = (none, none) := by
  simp only [findAdjacentAllocations, h]

/-- Witness for C9: an unknown id on a fresh heap. -/
theorem findAdjacentAllocations_unknown_witness :
    lookupAlloc initialHeap 7 = none ∧
    findAdjacentAllocations initialHeap 7 = (none, none) :=
  ⟨by decide, findAdjacentAllocations_unknown initialHeap 7 (by decide)⟩

/-- One allocation of size 64, then two deallocations of the same id. -/
def doubleFreeDemo : HeapState :=
  recordDeallocation (recordDeallocation (recordAllocation initialHeap 64 "Foo" [] 1).1 1 2) 1 3

/-- C10: deallocating the same id twice decrements the live counter twice, so
after one allocation and two deallocations of it the live counter is -1,
which is negative; the second call also re-set the freed timestamp to the
second deallocation time and counted a second deallocation. -/
theorem doubleFree_negative_live :
    doubleFreeDemo.stats.currentLiveAllocations = -1 ∧
    doubleFreeDemo.stats.currentLiveAllocations < 0 ∧
    doubleFreeDemo.stats.totalDeallocations = 2 ∧
    (lookupAlloc doubleFreeDemo 1).map (fun a => a.freedAt) = some (some 3) := by
  decide

/-! ### Bug simulator -/

/-- Character-list version of String.prototype.includes: needle is a
contiguous substring starting at some position. -/
def startsWithChars : List Char → List Char → Bool
  | [], _ => true
  | _ :: _, [] => false
  | p :: ps, c :: cs => p == c && startsWithChars ps cs

/-- Scan every suffix of the haystack for the needle. -/
def includesChars (needle : List Char) : List Char → Bool
  | [] => startsWithChars needle []
  | c :: cs => startsWithChars needle (c :: cs) || includesChars needle cs

/-- String.prototype.includes, used for the fuzzy type matching. -/
def strIncludes (s pat : String) : Bool :=
  includesChars pat.toList s.toList

/-- The fixed critical type set of the severity heuristics. -/
def criticalTypes : List String := ["Function", "ArrayBuffer", "WebAssembly", "VTable"]

/-- The fixed sensitive type set of the severity heuristics. -/
def sensitiveTypes : List String := ["Array", "Object", "Map", "Set"]

/-- Severity tiers; the JS code uses the corresponding strings, plus the
string "unknown" for a type confusion with no example allocation. -/
inductive Severity where
  | low
  | medium
  | high
  | critical
  | unknown
deriving DecidableEq, Repr

/-- BugSimulator.assessOverflowSeverity. -/
def assessOverflowSeverity (_source target : Allocation) (overflowSize : Int) : Severity :=
  if criticalTypes.any (fun t => strIncludes target.type t) then .critical
  else if sensitiveTypes.any (fun t => strIncludes target.type t) then .high
  else if 100 < overflowSize then .high
  else if 16 < overflowSize then .medium
  else .low

/-- BugSimulator.assessUafSeverity. -/
def assessUafSeverity (freed reuser : Allocation) : Severity :=
  if criticalTypes.any (fun t => strIncludes reuser.type t) then .critical
  else if sensitiveTypes.any (fun t => strIncludes reuser.type t) then .high
  else if criticalTypes.any (fun t => strIncludes freed.type t) then .high
  else .medium

/-- The impact structure of a bug record; the allocation references and the
notes start absent and are filled per bug kind. -/
structure BugImpact where
  corruptedAllocation : Option Allocation
  reusingAllocation : Option Allocation
  exampleAllocation : Option Allocation
  severity : Severity
  notes : Option String
deriving DecidableEq, Repr

/-- A bug record as stored in BugSimulator.activeBugs.  The bug-kind-specific
fields (overflowSize, wrongType) are optional; the source field snapshots the
source allocation at simulation time. -/
structure BugRecord where
  id : Nat
  type : String
  sourceId : Nat
  source : Allocation
  overflowSize : Option Int
  wrongType : Option String
  timestamp : Nat
  impact : BugImpact
deriving DecidableEq, Repr

/-- The BugSimulator state together with the HeapAnalyzer it reads. -/
structure SimState where
  analyzer : HeapState
  activeBugs : List BugRecord
  nextBugId : Nat
deriving DecidableEq, Repr

/-- The impact recorded by simulateOverflow when the next neighbor is absent
or not allocated. -/
def noCorruptionImpact : BugImpact :=
  { corruptedAllocation := none, reusingAllocation := none, exampleAllocation := none,
    severity := .low, notes := some "No active allocation would be directly corrupted" }

/-- BugSimulator.simulateOverflow: none models the two error returns (source
not found, source not active). -/
def simulateOverflow (st : SimState) (sourceId : Nat) (overflowSize : Int) (now : Nat) :
    SimState × Option BugRecord :=
  match lookupAlloc st.analyzer sourceId with
  | none => (st, none)
  | some source =>
    if source.status = .allocated then
      let bugId := st.nextBugId
      let adjacentNext := (findAdjacentAllocations st.analyzer sourceId).2
      let impact : BugImpact :=
        match adjacentNext with
        | some nxt =>
          if nxt.status = .allocated then
            { corruptedAllocation := some nxt, reusingAllocation := none,
              exampleAllocation := none,
              severity := assessOverflowSeverity source nxt overflowSize, notes := none }
          else noCorruptionImpact
        | none => noCorruptionImpact
      let bug : BugRecord :=
        { id := bugId, type := "overflow", sourceId := sourceId, source := source,
          overflowSize := some overflowSize, wrongType := none, timestamp := now,
          impact := impact }
      ({ analyzer := recordBug st.analyzer sourceId "overflow" (some overflowSize)
           (adjacentNext.map (fun a => a.id)) none now
         activeBugs := st.activeBugs ++ [bug]
         nextBugId := bugId + 1 }, some bug)
    else (st, none)

/-- Candidates for reuse of a freed allocation: same-bucket records that are
allocated and were created strictly after the free timestamp (freedAt
defaults to 0 when absent, as freedAlloc.freedAt || 0 does). -/
def potentialReusers (s : HeapState) (freedAlloc : Allocation) : List Allocation :=
  (getAllocationsInBucket s (findBucketForSize freedAlloc.size)).filter
    (fun a => a.status == .allocated && decide (freedAlloc.freedAt.getD 0 < a.timestamp))

/-- The first element of the candidates sorted ascending by creation
timestamp: a JS stable sort followed by taking index 0 yields the first
candidate with minimal timestamp, computed here as a fold. -/
def mostLikelyReuser : List Allocation → Option Allocation
  | [] => none
  | a :: as => some (as.foldl (fun best c => if c.timestamp < best.timestamp then c else best) a)

/-- BugSimulator.simulateUseAfterFree. -/
def simulateUseAfterFree (st : SimState) (freedId : Nat) (now : Nat) :
    SimState × Option BugRecord :=
  match lookupAlloc st.analyzer freedId with
  | none => (st, none)
  | some freedAlloc =>
    if freedAlloc.status = .freed then
      let bugId := st.nextBugId
      let impact : BugImpact :=
        match mostLikelyReuser (potentialReusers st.analyzer freedAlloc) with
        | some reuser =>
          { corruptedAllocation := none, reusingAllocation := some reuser,
            exampleAllocation := none,
            severity := assessUafSeverity freedAlloc reuser, notes := none }
        | none =>
          { corruptedAllocation := none, reusingAllocation := none,
            exampleAllocation := none, severity := .medium,
            notes := some "No reuse detected yet, but memory could be reused later" }
      let bug : BugRecord :=
        { id := bugId, type := "use-after-free", sourceId := freedId, source := freedAlloc,
          overflowSize := none, wrongType := none, timestamp := now, impact := impact }
      ({ analyzer := recordBug st.analyzer freedId "use-after-free" none
           (impact.reusingAllocation.map (fun a => a.id)) none now
         activeBugs := st.activeBugs ++ [bug]
         nextBugId := bugId + 1 }, some bug)
    else (st, none)

/-- BugSimulator.simulateTypeConfusion.  The example search filters for the
wrong type and allocated status over the full allocation table. -/
def simulateTypeConfusion (st : SimState) (sourceId : Nat) (wrongType : String) (now : Nat) :
    SimState × Option BugRecord :=
  match lookupAlloc st.analyzer sourceId with
  | none => (st, none)
  | some source =>
    if source.status = .allocated then
      let bugId := st.nextBugId
      let wrongTypeExamples := st.analyzer.allocations.filter
        (fun a => a.type == wrongType && a.status == .allocated)
      let impact : BugImpact :=
        match wrongTypeExamples with
        | example0 :: _ =>
          let sizeDiff := source.size - example0.size
          { corruptedAllocation := none, reusingAllocation := none,
            exampleAllocation := some example0,
            severity := if 0 < sizeDiff then .high else .medium,
            notes := some (if 0 < sizeDiff then
                source.type ++ " is larger than " ++ wrongType ++ ", potential out-of-bounds access"
              else if sizeDiff < 0 then
                source.type ++ " is smaller than " ++ wrongType ++ ", potential metadata corruption"
              else
                "Types have same size, but internal layout differences may cause issues") }
        | [] =>
          { corruptedAllocation := none, reusingAllocation := none,
            exampleAllocation := none, severity := .unknown,
            notes := some ("No examples of " ++ wrongType ++ " available for comparison") }
      let bug : BugRecord :=
        { id := bugId, type := "type-confusion", sourceId := sourceId, source := source,
          overflowSize := none, wrongType := some wrongType, timestamp := now,
          impact := impact }
      ({ analyzer := recordBug st.analyzer sourceId "type-confusion" none none
           (some wrongType) now
         activeBugs := st.activeBugs ++ [bug]
         nextBugId := bugId + 1 }, some bug)
    else (st, none)

/-- The result of assessExploitability: the overall tier string and the
score (the factor and difficulty string lists are presentation content). -/
structure Assessment where
  overall : String
  score : Int
deriving DecidableEq, Repr

/-- BugSimulator.assessExploitability.  Note that every exploitability branch
tests only for the substrings Function and ArrayBuffer, not the full critical
set of the severity heuristics. -/
def assessExploitability (st : SimState) (bugId : Nat) : Option Assessment :=
  match st.activeBugs.find? (fun b => b.id == bugId) with
  | none => none
  | some bug =>
    let base : Int :=
      if bug.type = "overflow" then
        match bug.impact.corruptedAllocation with
        | some target =>
          (if strIncludes target.type "Function" || strIncludes target.type "ArrayBuffer"
           then 30 else 0)
          + (match bug.overflowSize with
             | some osz => if osz ≤ 8 then 20 else if osz ≤ 64 then 10 else -10
             | none => -10)
        | none => -20
      else if bug.type = "use-after-free" then
        match bug.impact.reusingAllocation with
        | some reuser =>
          (if strIncludes reuser.type "ArrayBuffer" || strIncludes reuser.type "Function"
           then 30 else 0)
          + (if bug.source.type = reuser.type then 15 else -10)
        | none => -15
      else if bug.type = "type-confusion" then
        (if strIncludes (bug.wrongType.getD "") "Function"
            || strIncludes (bug.wrongType.getD "") "ArrayBuffer" then 25 else 0)
        + (match bug.impact.exampleAllocation with
           | some example0 => if 0 < bug.source.size - example0.size then 20 else 0
           | none => -10)
      else -20
    let exploitScore : Int :=
      base + (if 100 < st.analyzer.stats.totalAllocations then 10 else 0)
    some { overall :=
             if 40 ≤ exploitScore then "high"
             else if 20 ≤ exploitScore then "medium"
             else "low"
           score := exploitScore }

/-! ### Lemmas about the earliest-timestamp selection -/

/-- The fold that keeps the earlier-created allocation picks a list member. -/
theorem foldlMin_mem (as : List Allocation) (a : Allocation) :
    (as.foldl (fun best c => if c.timestamp < best.timestamp then c else best) a) ∈ a :: as := by
  induction as generalizing a with
  | nil => simp
  | cons b bs ih =>
    simp only [List.foldl_cons]
    rcases List.mem_cons.mp (ih (if b.timestamp < a.timestamp then b else a)) with h | h
    · rw [h]
      by_cases hb : b.timestamp < a.timestamp
      · simp [hb]
      · simp [hb]
    · exact List.mem_cons_of_mem _ (List.mem_cons_of_mem _ h)

/-- The fold result has the minimal creation timestamp of start and list. -/
theorem foldlMin_le (as : List Allocation) (a : Allocation) :
    ∀ c ∈ a :: as,
      (as.foldl (fun best c => if c.timestamp < best.timestamp then c else best) a).timestamp
        ≤ c.timestamp := by
  induction as generalizing a with
  | nil =>
    intro c hc
    rcases List.mem_cons.mp hc with rfl | h
    · exact le_refl _
    · simp at h
  | cons b bs ih =>
    intro c hc
    simp only [List.foldl_cons]
    have hstart :
        (if b.timestamp < a.timestamp then b else a).timestamp ≤ a.timestamp ∧
        (if b.timestamp < a.timestamp then b else a).timestamp ≤ b.timestamp := by
      by_cases hb : b.timestamp < a.timestamp
      · simp only [if_pos hb]
        omega
      · simp only [if_neg hb]
        omega
    have hhead := ih (if b.timestamp < a.timestamp then b else a)
      (if b.timestamp < a.timestamp then b else a) (List.mem_cons_self _ _)
    rcases List.mem_cons.mp hc with rfl | hc2
    · exact le_trans hhead hstart.1
    · rcases List.mem_cons.mp hc2 with rfl | hc3
      · exact le_trans hhead hstart.2
      · exact ih (if b.timestamp < a.timestamp then b else a) c (List.mem_cons_of_mem _ hc3)

/-- The selected reuser is a candidate of minimal creation timestamp. -/
theorem mostLikelyReuser_spec (l : List Allocation) (r : Allocation)
    (h : mostLikelyReuser l = some r) :
    r ∈ l ∧ ∀ c ∈ l, r.timestamp ≤ c.timestamp := by
  cases l with
  | nil => simp [mostLikelyReuser] at h
  | cons a as =>
    simp only [mostLikelyReuser, Option.some.injEq] at h
    subst h
    exact ⟨foldlMin_mem as a, foldlMin_le as a⟩

/-- A nonempty candidate list yields a selected reuser. -/
theorem mostLikelyReuser_of_ne_nil (l : List Allocation) (h : l ≠ []) :
    ∃ r, mostLikelyReuser l = some r := by
  cases l with
  | nil => exact absurd rfl h
  | cons a as => exact ⟨_, rfl⟩

/-- C2: simulateOverflow on an existing, allocated source inspects the next
structural neighbor: when it exists and is allocated it becomes the corrupted
target and severity follows the assessOverflowSeverity cascade (critical
substring set, then sensitive set, then overflow magnitude); when it is
absent or not allocated, severity is low with the no-corruption note. -/
theorem simulateOverflow_spec (st : SimState) (sourceId : Nat) (overflowSize : Int)
    (now : Nat) (source : Allocation)
    (h1 : lookupAlloc st.analyzer sourceId = some source)
    (h2 : source.status = .allocated) :
    ∃ bug, (simulateOverflow st sourceId overflowSize now).2 = some bug ∧
      bug.source = source ∧
      (∀ nxt, (findAdjacentAllocations st.analyzer sourceId).2 = some nxt →
        nxt.status = .allocated →
        bug.impact.corruptedAllocation = some nxt ∧
        bug.impact.severity =
          (if criticalTypes.any (fun t => strIncludes nxt.type t) then .critical
           else if sensitiveTypes.any (fun t => strIncludes nxt.type t) then .high
           else if 100 < overflowSize then .high
           else if 16 < overflowSize then .medium
           else .low)) ∧
      (((findAdjacentAllocations st.analyzer sourceId).2 = none ∨
        ∃ nxt, (findAdjacentAllocations st.analyzer sourceId).2 = some nxt ∧
          nxt.status ≠ .allocated) →
        bug.impact.severity = .low ∧
        bug.impact.notes = some "No active allocation would be directly corrupted") := by
  simp only [simulateOverflow, h1, if_pos h2]
  refine ⟨_, rfl, rfl, ?_, ?_⟩
  · intro nxt hnxt hstat
    simp only [hnxt, if_pos hstat]
    refine ⟨?_, ?_⟩ <;> trivial
  · intro hcase
    rcases hcase with hnone | ⟨nxt, hnxt, hstat⟩
    · simp only [hnone, noCorruptionImpact]
      refine ⟨?_, ?_⟩ <;> trivial
    · simp only [hnxt, if_neg hstat, noCorruptionImpact]
      refine ⟨?_, ?_⟩ <;> trivial

/-- A SimState over the two-allocation heap, with no bugs yet. -/
def simFooBar : SimState :=
  { analyzer := heapFooBar, activeBugs := [], nextBugId := 1 }

/-- Witness for C2: overflowing id 1 in the Foo/Bar heap corrupts the Bar
record (the next neighbor, which is allocated) at severity low (Bar matches
no critical or sensitive substring and the overflow is 4 bytes). -/
theorem simulateOverflow_spec_witness :
    ∃ bug, (simulateOverflow simFooBar 1 4 3).2 = some bug ∧
      bug.impact.corruptedAllocation = some barRec ∧
      bug.impact.severity = Severity.low := by
  obtain ⟨bug, hbug, -, hnext, -⟩ :=
    simulateOverflow_spec simFooBar 1 4 3 fooRec (by decide) (by decide)
  have h := hnext barRec (by decide) (by decide)
  refine ⟨bug, hbug, h.1, ?_⟩
  rw [h.2]
  decide

/-- C3: simulateUseAfterFree on an existing, freed allocation selects as
reuser a same-bucket allocated record created strictly after the free time
with minimal creation timestamp, and grades it by the assessUafSeverity
cascade; with no candidate the severity is medium with the no-reuse note. -/
theorem simulateUseAfterFree_spec (st : SimState) (freedId now : Nat)
    (freedAlloc : Allocation)
    (h1 : lookupAlloc st.analyzer freedId = some freedAlloc)
    (h2 : freedAlloc.status = .freed) :
    ∃ bug, (simulateUseAfterFree st freedId now).2 = some bug ∧
      bug.source = freedAlloc ∧
      (potentialReusers st.analyzer freedAlloc = [] →
        bug.impact.reusingAllocation = none ∧
        bug.impact.severity = .medium ∧
        bug.impact.notes = some "No reuse detected yet, but memory could be reused later") ∧
      (potentialReusers st.analyzer freedAlloc ≠ [] →
        ∃ reuser, bug.impact.reusingAllocation = some reuser ∧
          reuser ∈ potentialReusers st.analyzer freedAlloc ∧
          (∀ c ∈ potentialReusers st.analyzer freedAlloc,
            reuser.timestamp ≤ c.timestamp) ∧
          bug.impact.severity =
            (if criticalTypes.any (fun t => strIncludes reuser.type t) then .critical
             else if sensitiveTypes.any (fun t => strIncludes reuser.type t) then .high
             else if criticalTypes.any (fun t => strIncludes freedAlloc.type t) then .high
             else .medium)) := by
  simp only [simulateUseAfterFree, h1, if_pos h2]
  refine ⟨_, rfl, rfl, ?_, ?_⟩
  · intro hemp
    simp only [hemp, mostLikelyReuser]
    refine ⟨?_, ?_, ?_⟩ <;> trivial
  · intro hne
    obtain ⟨r, hr⟩ := mostLikelyReuser_of_ne_nil _ hne
    obtain ⟨hmem, hmin⟩ := mostLikelyReuser_spec _ _ hr
    simp only [hr]
    exact ⟨r, rfl, hmem, hmin, rfl⟩

/-- A SimState over the single freed Foo allocation. -/
def simFreedFoo : SimState :=
  { analyzer := freedFooHeap, activeBugs := [], nextBugId := 1 }

/-- The freed Foo heap with an ArrayBuffer allocated afterwards at time 3. -/
def uafHeap : HeapState :=
  (recordAllocation freedFooHeap 64 "ArrayBuffer" [] 3).1

/-- A SimState over that heap. -/
def simUafDemo : SimState :=
  { analyzer := uafHeap, activeBugs := [], nextBugId := 1 }

/-- The ArrayBuffer record allocated at time 3 in uafHeap. -/
def abRec : Allocation :=
  { id := 2, size := 64, type := "ArrayBuffer", timestamp := 3, metadata := [],
    status := .allocated, freedAt := none }

/-- Witness for C3: with no later same-bucket allocation the severity is
medium; and with an ArrayBuffer allocated after the free it is the reuser
and the severity is critical. -/
theorem simulateUseAfterFree_spec_witness :
    (∃ bug, (simulateUseAfterFree simFreedFoo 1 5).2 = some bug ∧
      bug.impact.reusingAllocation = none ∧ bug.impact.severity = Severity.medium) ∧
    (∃ bug, (simulateUseAfterFree simUafDemo 1 6).2 = some bug ∧
      bug.impact.reusingAllocation = some abRec ∧
      bug.impact.severity = Severity.critical) := by
  constructor
  · obtain ⟨bug, hbug, -, hemp, -⟩ :=
      simulateUseAfterFree_spec simFreedFoo 1 5 (freeAlloc fooRec 2) (by decide) (by decide)
    have h := hemp (by decide)
    exact ⟨bug, hbug, h.1, h.2.1⟩
  · obtain ⟨bug, hbug, -, -, hne⟩ :=
      simulateUseAfterFree_spec simUafDemo 1 6 (freeAlloc fooRec 2) (by decide) (by decide)
    obtain ⟨reuser, hr, hmem, -, hsev⟩ := hne (by decide)
    have hlist : potentialReusers simUafDemo.analyzer (freeAlloc fooRec 2) = [abRec] := by decide
    rw [hlist] at hmem
    have heq : reuser = abRec := by simpa using hmem
    subst heq
    refine ⟨bug, hbug, hr, ?_⟩
    rw [hsev]
    decide

/-- A heap with Foo (id 1) then VTable (id 2), both size 64 and allocated. -/
def vtHeap : HeapState :=
  (recordAllocation (recordAllocation initialHeap 64 "Foo" [] 1).1 64 "VTable" [] 2).1

/-- A SimState over that heap. -/
def simVt : SimState :=
  { analyzer := vtHeap, activeBugs := [], nextBugId := 1 }

/-- The VTable record of vtHeap. -/
def vtRec : Allocation :=
  { id := 2, size := 64, type := "VTable", timestamp := 2, metadata := [],
    status := .allocated, freedAt := none }

/-- The overflow bug record produced by simulateOverflow simVt 1 4 3. -/
def vtBug : BugRecord :=
  { id := 1, type := "overflow", sourceId := 1, source := fooRec,
    overflowSize := some 4, wrongType := none, timestamp := 3,
    impact := { corruptedAllocation := some vtRec, reusingAllocation := none,
                exampleAllocation := none, severity := .critical, notes := none } }

/-- Counterexample for C4: an overflow bug whose corrupted target has type
VTable, which is in the critical set, with overflowSize 4 ≤ 8 and at most
100 recorded allocations.  The claim then demands score 30 + 20 = 50 and
tier High, but assessExploitability only credits targets whose type contains
Function or ArrayBuffer, so the score is 20 and the tier is medium. -/
theorem assessExploitability_counterexample :
    ((simulateOverflow simVt 1 4 3).2.map (fun b => b.impact.corruptedAllocation))
      = some (some vtRec) ∧
    criticalTypes.any (fun t => strIncludes vtRec.type t) = true ∧
    (strIncludes vtRec.type "Function" || strIncludes vtRec.type "ArrayBuffer") = false ∧
    (simulateOverflow simVt 1 4 3).1.analyzer.stats.totalAllocations = 2 ∧
    assessExploitability (simulateOverflow simVt 1 4 3).1 1
      = some { overall := "medium", score := 20 } := by
  refine ⟨by decide, by decide, by decide, by decide, by decide⟩

/-- Scoring of the amended claim C4: identical deltas and thresholds, except
that the +30, +30 and +25 type bonuses test whether the relevant type
contains Function or ArrayBuffer as a substring (not the full critical set
made of Function, ArrayBuffer, WebAssembly and VTable), and the
overflow-size deltas apply only when a corrupted target exists, the
same-type deltas only when a reuser exists, and the size-comparison bonus
only when an example exists. -/
def claimScore (bug : BugRecord) (totalAllocations : Nat) : Int :=
  (if bug.type = "overflow" then
    match bug.impact.corruptedAllocation with
    | some target =>
      (if strIncludes target.type "Function" || strIncludes target.type "ArrayBuffer"
       then 30 else 0)
      + (match bug.overflowSize with
         | some osz => if osz ≤ 8 then 20 else if osz ≤ 64 then 10 else -10
         | none => -10)
    | none => -20
  else if bug.type = "use-after-free" then
    match bug.impact.reusingAllocation with
    | some reuser =>
      (if strIncludes reuser.type "ArrayBuffer" || strIncludes reuser.type "Function"
       then 30 else 0)
      + (if bug.source.type = reuser.type then 15 else -10)
    | none => -15
  else if bug.type = "type-confusion" then
    (if strIncludes (bug.wrongType.getD "") "Function"
        || strIncludes (bug.wrongType.getD "") "ArrayBuffer" then 25 else 0)
    + (match bug.impact.exampleAllocation with
       | some example0 => if 0 < bug.source.size - example0.size then 20 else 0
       | none => -10)
  else -20)
  + (if 100 < totalAllocations then 10 else 0)

/-- C4 (amended): assessExploitability of a recorded bug computes exactly the
claimScore deltas (with the type bonuses restricted to the substrings
Function and ArrayBuffer) plus the flat +10 heap-complexity bonus over 100
recorded allocations, and the tier is High iff the score is at least 40,
Medium iff it is in [20, 40), else Low. -/
theorem assessExploitability_amended (st : SimState) (bugId : Nat) (bug : BugRecord)
    (h : st.activeBugs.find? (fun b => b.id == bugId) = some bug) :
    assessExploitability st bugId =
      some { overall :=
               if 40 ≤ claimScore bug st.analyzer.stats.totalAllocations then "high"
               else if 20 ≤ claimScore bug st.analyzer.stats.totalAllocations then "medium"
               else "low"
             score := claimScore bug st.analyzer.stats.totalAllocations } := by
  simp only [assessExploitability, h, claimScore]

/-- Witness for C4 (amended): the VTable overflow bug evaluated through the
amended statement yields score 20 and tier medium. -/
theorem assessExploitability_amended_witness :
    assessExploitability (simulateOverflow simVt 1 4 3).1 1
      = some { overall := "medium", score := 20 } := by
  rw [assessExploitability_amended (simulateOverflow simVt 1 4 3).1 1 vtBug (by decide)]
  decide

/-! ### Grooming strategy generator -/

/-- A strategy phase: the kind tag and the human-readable description (the
generated code artifact is opaque demo text and is not modelled). -/
structure StrategyPhase where
  type : String
  description : String
deriving DecidableEq, Repr

/-- A generated strategy plan. -/
structure Strategy where
  name : String
  description : String
  targetBucket : Option Int
  targetObjects : List String
  approach : Option String
  phases : List StrategyPhase
deriving DecidableEq, Repr

/-- The local critical type list of findDesirableNeighbors. -/
def overflowNeighborTypes : List String := ["ArrayBuffer", "Function", "WebAssembly"]

/-- GroomingStrategyGenerator.findDesirableNeighbors: for each critical type
in order, the first allocated non-source bucket member whose type contains
it; when that list is empty, the first allocated non-source member matching
no critical type.  The overflowSize argument is unused, as in the source. -/
def findDesirableNeighbors (s : HeapState) (source : Allocation)
    (_overflowSize : Option Int) : List Allocation :=
  let bucketSize := findBucketForSize source.size
  let allocationsInBucket := getAllocationsInBucket s bucketSize
  let result := overflowNeighborTypes.filterMap (fun t =>
    (allocationsInBucket.filter (fun a =>
      strIncludes a.type t && !(a.id == source.id) && a.status == .allocated)).head?)
  if result.isEmpty then
    match allocationsInBucket.filter (fun a =>
      !(overflowNeighborTypes.any (fun t => strIncludes a.type t)) &&
      !(a.id == source.id) && a.status == .allocated) with
    | [] => []
    | a :: _ => [a]
  else result

/-- The fixed preference order of findBestSprayCandidate. -/
def preferredSprayTypes : List String := ["ArrayBuffer", "Uint8Array", "Object", "Array"]

/-- GroomingStrategyGenerator.findBestSprayCandidate: the first preferred
type ever allocated, ArrayBuffer when none matches.  The targetSize argument
is unused, as in the source. -/
def findBestSprayCandidate (s : HeapState) (_targetSize : Int) : String :=
  match preferredSprayTypes.find? (fun t => s.allocations.any (fun a => a.type == t)) with
  | some t => t
  | none => "ArrayBuffer"

/-- The local critical type list of findUafReplacementCandidates. -/
def uafReplacementTypes : List String := ["ArrayBuffer", "Function", "Object"]

/-- The most frequent type among the records, first occurrence winning ties,
as the typeCounts loop of findUafReplacementCandidates computes it. -/
def mostCommonTypeIn (allocs : List Allocation) : Option String :=
  let counts := (allocs.map (fun a => a.type)).eraseDups.map
    (fun t => (t, (allocs.filter (fun a => a.type == t)).length))
  (counts.foldl (fun best p =>
     match best with
     | none => if 0 < p.2 then some p else none
     | some q => if q.2 < p.2 then some p else some q) none).map (fun p => p.1)

/-- GroomingStrategyGenerator.findUafReplacementCandidates: per critical type
the first same-bucket non-source member whose type contains it (with no
status filter); else the first member of the most common remaining type. -/
def findUafReplacementCandidates (s : HeapState) (source : Allocation) : List Allocation :=
  let bucketSize := findBucketForSize source.size
  let allocationsInBucket := (getAllocationsInBucket s bucketSize).filter
    (fun a => !(a.id == source.id))
  let result := uafReplacementTypes.filterMap (fun t =>
    (allocationsInBucket.filter (fun a => strIncludes a.type t)).head?)
  if result.isEmpty then
    if allocationsInBucket.isEmpty then []
    else
      match mostCommonTypeIn allocationsInBucket with
      | some t =>
        match allocationsInBucket.find? (fun a => a.type == t) with
        | some a => [a]
        | none => []
      | none => []
  else result

/-- GroomingStrategyGenerator.findTypesInBucket: the distinct types of a
bucket in first-occurrence order. -/
def findTypesInBucket (s : HeapState) (bucketSize : Int) : List String :=
  ((getAllocationsInBucket s bucketSize).map (fun a => a.type)).eraseDups

/-- GroomingStrategyGenerator.generateOverflowStrategy. -/
def generateOverflowStrategy (s : HeapState) (bug : BugRecord) : Option Strategy :=
  match lookupAlloc s bug.sourceId with
  | none => none
  | some source =>
    let bucketSize := findBucketForSize source.size
    let overflowText := match bug.overflowSize with
      | some n => toString n
      | none => "undefined"
    let base : Strategy :=
      { name := "Buffer Overflow Strategy (" ++ source.type ++ ")"
        description := "Strategy to exploit " ++ overflowText ++ "-byte overflow in "
          ++ source.type ++ " object"
        targetBucket := some bucketSize
        targetObjects := []
        approach := none
        phases := [] }
    match findDesirableNeighbors s source bug.overflowSize with
    | n0 :: rest =>
      some { base with
        approach := some "precise_placement"
        targetObjects := (n0 :: rest).map (fun n => n.type)
        phases :=
          [{ type := "preparation",
             description := "Prepare the heap by cleaning up the target bucket" },
           { type := "allocation",
             description := "Allocate vulnerable " ++ source.type ++ " object" },
           { type := "allocation",
             description := "Allocate target " ++ n0.type
               ++ " object adjacent to vulnerable object" },
           { type := "trigger",
             description := "Trigger the overflow to corrupt adjacent object" },
           { type := "exploitation",
             description := "Search for and exploit the corrupted object" }] }
    | [] =>
      let sprayType := findBestSprayCandidate s source.size
      some { base with
        approach := some "spray"
        targetObjects := [sprayType]
        phases :=
          [{ type := "preparation",
             description := "Prepare the heap by spraying with dummy objects" },
           { type := "allocation",
             description := "Allocate vulnerable " ++ source.type ++ " object among spray" },
           { type := "spray",
             description := "Continue spraying with " ++ sprayType ++ " objects" },
           { type := "trigger",
             description := "Trigger the overflow to corrupt sprayed objects" },
           { type := "exploitation",
             description := "Search for and exploit the corrupted object" }] }

/-- GroomingStrategyGenerator.generateUafStrategy. -/
def generateUafStrategy (s : HeapState) (bug : BugRecord) : Option Strategy :=
  match lookupAlloc s bug.sourceId with
  | none => none
  | some source =>
    let bucketSize := findBucketForSize source.size
    let base : Strategy :=
      { name := "Use-After-Free Strategy (" ++ source.type ++ ")"
        description := "Strategy to exploit use-after-free on " ++ source.type ++ " object"
        targetBucket := some bucketSize
        targetObjects := []
        approach := none
        phases := [] }
    match findUafReplacementCandidates s source with
    | c0 :: rest =>
      some { base with
        approach := some "controlled_reuse"
        targetObjects := (c0 :: rest).map (fun c => c.type)
        phases :=
          [{ type := "preparation",
             description := "Prepare the heap by allocating many victim objects" },
           { type := "free",
             description := "Free the victim object while keeping a reference" },
           { type := "allocation",
             description := "Allocate " ++ c0.type ++ " objects to replace freed memory" },
           { type := "trigger",
             description := "Access the victim object through dangling pointer" },
           { type := "exploitation",
             description := "Exploit the object type confusion" }] }
    | [] =>
      let bucketTypes := findTypesInBucket s bucketSize
      let sprayType := match bucketTypes with
        | t :: _ => t
        | [] => "ArrayBuffer"
      some { base with
        approach := some "mass_spray"
        targetObjects := [sprayType]
        phases :=
          [{ type := "preparation",
             description := "Prepare the heap with victim objects" },
           { type := "free",
             description := "Free the victim objects while keeping references" },
           { type := "spray",
             description := "Spray many " ++ sprayType
               ++ " objects to increase likelihood of reuse" },
           { type := "trigger",
             description := "Access the victim objects through dangling pointers" },
           { type := "exploitation",
             description := "Exploit the object type confusion" }] }

/-- The sizeDiff of the type-confusion strategy builder: the source size
minus the size of the first recorded allocation of the wrong type, with NO
filter on that allocation's status, and 0 when no such allocation exists. -/
def strategySizeDiff (s : HeapState) (source : Allocation) (wrongType : String) : Int :=
  match s.allocations.filter (fun a => a.type == wrongType) with
  | [] => 0
  | example0 :: _ => source.size - example0.size

/-- GroomingStrategyGenerator.generateTypeConfusionStrategy. -/
def generateTypeConfusionStrategy (s : HeapState) (bug : BugRecord) : Option Strategy :=
  match lookupAlloc s bug.sourceId with
  | none => none
  | some source =>
    let wrongType := bug.wrongType.getD ""
    let sizeDiff := strategySizeDiff s source wrongType
    let base : Strategy :=
      { name := "Type Confusion Strategy (" ++ source.type ++ " → " ++ wrongType ++ ")"
        description := "Strategy to exploit type confusion between " ++ source.type
          ++ " and " ++ wrongType
        targetBucket := none
        targetObjects := []
        approach := none
        phases := [] }
    if 0 < sizeDiff then
      some { base with
        approach := some "size_mismatch_larger"
        phases :=
          [{ type := "preparation",
             description := "Create many " ++ source.type ++ " objects for later confusion" },
           { type := "confusion_setup",
             description := "Force type confusion between " ++ source.type
               ++ " and " ++ wrongType },
           { type := "exploit",
             description := "Access out-of-bounds memory through confused "
               ++ wrongType ++ " object" }] }
    else if sizeDiff < 0 then
      some { base with
        approach := some "size_mismatch_smaller"
        phases :=
          [{ type := "preparation",
             description := "Arrange " ++ wrongType ++ " objects in memory with controlled data" },
           { type := "confusion_setup",
             description := "Force type confusion between " ++ source.type
               ++ " and " ++ wrongType },
           { type := "exploit",
             description := "Corrupt metadata by writing beyond " ++ source.type
               ++ " boundaries" }] }
    else
      some { base with
        approach := some "field_misinterpretation"
        phases :=
          [{ type := "preparation",
             description := "Create " ++ source.type ++ " objects with specific field values" },
           { type := "confusion_setup",
             description := "Force type confusion between " ++ source.type
               ++ " and " ++ wrongType },
           { type := "exploit",
             description := "Exploit misinterpreted fields between types" }] }

/-- GroomingStrategyGenerator.generateGenericStrategy: the fixed spray and
pray template. -/
def generateGenericStrategy (_bug : BugRecord) : Option Strategy :=
  some { name := "Spray and Pray"
         description := "Spray memory with many identical objects"
         targetBucket := none
         targetObjects := []
         approach := none
         phases :=
           [{ type := "spray", description := "Spray memory with identical objects" },
            { type := "trigger", description := "Trigger the vulnerability" },
            { type := "scan", description := "Scan for corrupted objects" }] }

/-- GroomingStrategyGenerator.generateStrategyForBug: dispatch on bug kind. -/
def generateStrategyForBug (st : SimState) (bugId : Nat) : Option Strategy :=
  match st.activeBugs.find? (fun b => b.id == bugId) with
  | none => none
  | some bug =>
    if bug.type = "overflow" then generateOverflowStrategy st.analyzer bug
    else if bug.type = "use-after-free" then generateUafStrategy st.analyzer bug
    else if bug.type = "type-confusion" then generateTypeConfusionStrategy st.analyzer bug
    else generateGenericStrategy bug

/-- A heap where a Bar of size 32 was allocated and freed, then a Foo of
size 64 allocated: no currently-allocated example of Bar exists. -/
def tcHeap : HeapState :=
  (recordAllocation (recordDeallocation (recordAllocation initialHeap 32 "Bar" [] 1).1 1 2)
    64 "Foo" [] 3).1

/-- A SimState over that heap. -/
def simTc : SimState :=
  { analyzer := tcHeap, activeBugs := [], nextBugId := 1 }

/-- The Foo record of tcHeap. -/
def tcFooRec : Allocation :=
  { id := 2, size := 64, type := "Foo", timestamp := 3, metadata := [],
    status := .allocated, freedAt := none }

/-- The type-confusion bug record produced by simulateTypeConfusion simTc 2
Bar 4 (no allocated example of Bar, so severity unknown). -/
def tcBug : BugRecord :=
  { id := 1, type := "type-confusion", sourceId := 2, source := tcFooRec,
    overflowSize := none, wrongType := some "Bar", timestamp := 4,
    impact := { corruptedAllocation := none, reusingAllocation := none,
                exampleAllocation := none, severity := .unknown,
                notes := some "No examples of Bar available for comparison" } }

/-- Counterexample for C7: in tcHeap no currently-allocated example of Bar
exists, so the claim forces sizeDiff = 0 and approach
field_misinterpretation; but the strategy builder filters examples with no
status check, finds the freed 32-byte Bar, computes sizeDiff = 32 > 0 and
returns approach size_mismatch_larger. -/
theorem generateStrategy_counterexample :
    tcHeap.allocations.filter (fun a => a.type == "Bar" && a.status == AllocStatus.allocated)
      = [] ∧
    ((simulateTypeConfusion simTc 2 "Bar" 4).2.map (fun b => b.type))
      = some "type-confusion" ∧
    ((generateStrategyForBug (simulateTypeConfusion simTc 2 "Bar" 4).1 1).map
      (fun strat => strat.approach)) = some (some "size_mismatch_larger") := by
  refine ⟨by decide, by decide, by decide⟩

/-- C7 (amended): for a recorded type-confusion bug whose source allocation
exists, generateStrategyForBug computes sizeDiff as the source size minus
the size of the first recorded allocation of wrongType regardless of its
status (0 if no allocation of that type was ever recorded) and returns a
three-phase plan whose approach is size_mismatch_larger when sizeDiff > 0,
size_mismatch_smaller when sizeDiff < 0, field_misinterpretation when
sizeDiff = 0, with phases ordered preparation, confusion setup, exploit. -/
theorem generateStrategyForBug_typeConfusion (st : SimState) (bugId : Nat)
    (bug : BugRecord) (source : Allocation)
    (h : st.activeBugs.find? (fun b => b.id == bugId) = some bug)
    (ht : bug.type = "type-confusion")
    (hs : lookupAlloc st.analyzer bug.sourceId = some source) :
    ∃ strat, generateStrategyForBug st bugId = some strat ∧
      strat.approach = some
        (if 0 < strategySizeDiff st.analyzer source (bug.wrongType.getD "")
         then "size_mismatch_larger"
         else if strategySizeDiff st.analyzer source (bug.wrongType.getD "") < 0
         then "size_mismatch_smaller"
         else "field_misinterpretation") ∧
      strat.phases.map (fun p => p.type) = ["preparation", "confusion_setup", "exploit"] := by
  simp only [generateStrategyForBug, h, ht, reduceIte]
  simp only [generateTypeConfusionStrategy, hs]
  by_cases h1 : 0 < strategySizeDiff st.analyzer source (bug.wrongType.getD "")
  · simp only [h1, if_pos h1, if_true]
    exact ⟨_, rfl, rfl, rfl⟩
  · by_cases h2 : strategySizeDiff st.analyzer source (bug.wrongType.getD "") < 0
    · simp only [if_neg h1, if_pos h2, h1, h2]
      exact ⟨_, rfl, rfl, rfl⟩
    · simp only [if_neg h1, if_neg h2, h1, h2]
      exact ⟨_, rfl, rfl, rfl⟩

/-- Witness for C7 (amended): the concrete type-confusion bug in simTc winds
up in the size_mismatch_larger branch with the three phases in order. -/
theorem generateStrategyForBug_typeConfusion_witness :
    ∃ strat, generateStrategyForBug (simulateTypeConfusion simTc 2 "Bar" 4).1 1 = some strat ∧
      strat.approach = some "size_mismatch_larger" ∧
      strat.phases.map (fun p => p.type) = ["preparation", "confusion_setup", "exploit"] := by
  obtain ⟨strat, hs1, hs2, hs3⟩ :=
    generateStrategyForBug_typeConfusion (simulateTypeConfusion simTc 2 "Bar" 4).1 1
      tcBug tcFooRec (by decide) (by decide) (by decide)
  refine ⟨strat, hs1, ?_, hs3⟩
  rw [hs2]
  decide

end HeapKit
